import Mathlib

/-!
Verification of the document-to-flashcard generation pipeline of
`src/server/lib/openai.ts` (flashcards-ai). The text is modelled as a
`List Char` (one element per UTF-16 code unit of the JS string); the
upstream LLM API is an oracle parameter describing what each call
produces, so that the deterministic control flow around it can be proved.
-/

namespace FlashcardsAI

/-- Whether `pat` occurs at the start of `text` (a full occurrence:
`text.substring(0, pat.length) === pat` in JS terms). -/
def listStartsWith : List Char → List Char → Bool
  | [], _ => true
  | _ :: _, [] => false
  | p :: ps, c :: cs => p == c && listStartsWith ps cs

/-- JS `text.lastIndexOf(pat, fromIndex)`: the greatest index `i ≤ fromIndex`
at which `pat` fully occurs in `text`; `none` models the JS result `-1`.
The occurrence may extend past `fromIndex` — only its start is bounded. -/
def jsLastIndexOf (text pat : List Char) : Nat → Option Nat
  | 0 => if listStartsWith pat text then some 0 else none
  | i + 1 =>
    if listStartsWith pat (text.drop (i + 1)) then some (i + 1)
    else jsLastIndexOf text pat i

/-- The guard `breakPoint <= startIndex` of openai.ts lines 272 and 275:
a search result of `-1` (here `none`) or one not strictly beyond
`startIndex` is discarded, and the next strategy is tried. -/
def foundBeyond (r : Option Nat) (startIndex : Nat) : Option Nat :=
  match r with
  | some b => if b ≤ startIndex then none else some b
  | none => none

/-- One iteration of the `chunkText` while loop (openai.ts lines 263-283):
given that `endIndex < text.length`, compute the break point used for the
slice. Paragraph break (`"\n\n"`) first, then sentence end (`". "`), each
advanced by 2 to include the separator; otherwise the hard cut at
`endIndex = startIndex + maxChunkSize`. -/
def chunkBreakPoint (text : List Char) (maxChunkSize startIndex : Nat) : Nat :=
  match foundBeyond (jsLastIndexOf text ['\n', '\n'] (startIndex + maxChunkSize)) startIndex with
  | some b => b + 2
  | none =>
    match foundBeyond (jsLastIndexOf text ['.', ' '] (startIndex + maxChunkSize)) startIndex with
    | some b => b + 2
    | none => startIndex + maxChunkSize

/-- The while loop of `chunkText` (openai.ts lines 262-287). `fuel` bounds
the iteration count; `chunkList` passes `text.length`, which suffices
whenever `maxChunkSize ≥ 1` because every iteration strictly increases
`startIndex` (proved below), so running out of fuel coincides with the
loop condition `startIndex < text.length` turning false. -/
def chunkLoop (text : List Char) (maxChunkSize : Nat) : Nat → Nat → List (List Char)
  | _, 0 => []
  | startIndex, fuel + 1 =>
    if startIndex < text.length then
      if text.length ≤ startIndex + maxChunkSize then
        [text.drop startIndex]
      else
        (text.drop startIndex).take (chunkBreakPoint text maxChunkSize startIndex - startIndex) ::
          chunkLoop text maxChunkSize (chunkBreakPoint text maxChunkSize startIndex) fuel
    else []

/-- `chunkText` of openai.ts lines 252-290, at the level of char lists:
a text no longer than `maxChunkSize` is returned as the single chunk,
otherwise the while loop splits it. -/
def chunkList (text : List Char) (maxChunkSize : Nat) : List (List Char) :=
  if text.length ≤ maxChunkSize then [text]
  else chunkLoop text maxChunkSize 0 text.length

/-- `chunkText(text, maxChunkSize)` (openai.ts lines 252-290) on JS strings. -/
def chunkText (text : String) (maxChunkSize : Nat) : List String :=
  (chunkList text.data maxChunkSize).map String.mk

example : chunkText "hello" 10 = ["hello"] := by decide
example : chunkText "ab\n\ncd" 2 = ["ab\n\n", "cd"] := by decide
example : chunkText "ab. cd" 2 = ["ab. ", "cd"] := by decide
example : chunkText "abcde" 2 = ["ab", "cd", "e"] := by decide
example : chunkText "" 1 = [""] := by decide

theorem jsLastIndexOf_le (text pat : List Char) :
    ∀ fr i, jsLastIndexOf text pat fr = some i → i ≤ fr := by
  intro fr
  induction fr with
  | zero =>
    intro i h
    by_cases hs : listStartsWith pat text
    · simp [jsLastIndexOf, hs] at h
      omega
    · simp [jsLastIndexOf, hs] at h
  | succ n ih =>
    intro i h
    by_cases hs : listStartsWith pat (text.drop (n + 1))
    · simp [jsLastIndexOf, hs] at h
      omega
    · simp [jsLastIndexOf, hs] at h
      exact Nat.le_trans (ih i h) (Nat.le_succ n)

theorem foundBeyond_gt (r : Option Nat) (s b : Nat) (h : foundBeyond r s = some b) : s < b := by
  cases r with
  | none => simp [foundBeyond] at h
  | some x =>
    by_cases hx : x ≤ s
    · simp [foundBeyond, hx] at h
    · simp [foundBeyond, hx] at h
      omega

theorem foundBeyond_le (r : Option Nat) (s b fr : Nat)
    (hr : ∀ i, r = some i → i ≤ fr) (h : foundBeyond r s = some b) : b ≤ fr := by
  cases r with
  | none => simp [foundBeyond] at h
  | some x =>
    by_cases hx : x ≤ s
    · simp [foundBeyond, hx] at h
    · simp [foundBeyond, hx] at h
      subst h
      exact hr x rfl

/-- Forward progress of one loop iteration: the break point strictly
exceeds the current offset, for any positive chunk size. -/
theorem chunkBreakPoint_gt (text : List Char) (m s : Nat) (hm : 1 ≤ m) :
    s < chunkBreakPoint text m s := by
  unfold chunkBreakPoint
  cases hp : foundBeyond (jsLastIndexOf text ['\n', '\n'] (s + m)) s with
  | some b =>
    have hb := foundBeyond_gt _ _ _ hp
    show s < b + 2
    omega
  | none =>
    cases hq : foundBeyond (jsLastIndexOf text ['.', ' '] (s + m)) s with
    | some b =>
      have hb := foundBeyond_gt _ _ _ hq
      show s < b + 2
      omega
    | none =>
      show s < s + m
      omega

/-- The break point start is bounded by `endIndex`, so after the `+ 2`
that includes the separator it is at most `startIndex + maxChunkSize + 2`. -/
theorem chunkBreakPoint_le (text : List Char) (m s : Nat) :
    chunkBreakPoint text m s ≤ s + m + 2 := by
  unfold chunkBreakPoint
  cases hp : foundBeyond (jsLastIndexOf text ['\n', '\n'] (s + m)) s with
  | some b =>
    have hb := foundBeyond_le _ _ _ _ (fun i hi => jsLastIndexOf_le text _ _ i hi) hp
    show b + 2 ≤ s + m + 2
    omega
  | none =>
    cases hq : foundBeyond (jsLastIndexOf text ['.', ' '] (s + m)) s with
    | some b =>
      have hb := foundBeyond_le _ _ _ _ (fun i hi => jsLastIndexOf_le text _ _ i hi) hq
      show b + 2 ≤ s + m + 2
      omega
    | none =>
      show s + m ≤ s + m + 2
      omega

theorem chunkLoop_join (text : List Char) (m : Nat) (hm : 1 ≤ m) :
    ∀ fuel s, text.length ≤ s + fuel →
      (chunkLoop text m s fuel).foldr (· ++ ·) [] = text.drop s := by
  intro fuel
  induction fuel with
  | zero =>
    intro s hs
    simp [chunkLoop, List.drop_eq_nil_of_le (by omega : text.length ≤ s)]
  | succ n ih =>
    intro s hs
    by_cases h1 : s < text.length
    · by_cases h2 : text.length ≤ s + m
      · simp [chunkLoop, h1, h2]
      · have hgt := chunkBreakPoint_gt text m s hm
        have hrec := ih (chunkBreakPoint text m s) (by omega)
        have hdd : (text.drop s).drop (chunkBreakPoint text m s - s) =
            text.drop (chunkBreakPoint text m s) := by
          rw [List.drop_drop]
          congr 1
          omega
        calc (chunkLoop text m s (n + 1)).foldr (· ++ ·) []
            = (text.drop s).take (chunkBreakPoint text m s - s) ++
                (chunkLoop text m (chunkBreakPoint text m s) n).foldr (· ++ ·) [] := by
              simp [chunkLoop, h1, h2]
          _ = (text.drop s).take (chunkBreakPoint text m s - s) ++
                (text.drop s).drop (chunkBreakPoint text m s - s) := by rw [hrec, hdd]
          _ = text.drop s := List.take_append_drop _ _
    · simp [chunkLoop, h1, List.drop_eq_nil_of_le (by omega : text.length ≤ s)]

theorem chunkLoop_ne_nil (text : List Char) (m : Nat) (hm : 1 ≤ m) :
    ∀ fuel s c, c ∈ chunkLoop text m s fuel → c ≠ [] := by
  intro fuel
  induction fuel with
  | zero =>
    intro s c hc
    simp [chunkLoop] at hc
  | succ n ih =>
    intro s c hc
    by_cases h1 : s < text.length
    · by_cases h2 : text.length ≤ s + m
      · simp [chunkLoop, h1, h2] at hc
        subst hc
        have hpos : 0 < (text.drop s).length := by
          rw [List.length_drop]
          omega
        exact List.length_pos.mp hpos
      · simp [chunkLoop, h1, h2] at hc
        rcases hc with hc | hc
        · subst hc
          have hgt := chunkBreakPoint_gt text m s hm
          have hpos :
              0 < ((text.drop s).take (chunkBreakPoint text m s - s)).length := by
            rw [List.length_take, List.length_drop]
            apply lt_min_iff.mpr
            constructor <;> omega
          exact List.length_pos.mp hpos
        · exact ih _ _ hc
    · simp [chunkLoop, h1] at hc

theorem chunkLoop_size_le (text : List Char) (m : Nat) :
    ∀ fuel s c, c ∈ chunkLoop text m s fuel → c.length ≤ m + 2 := by
  intro fuel
  induction fuel with
  | zero =>
    intro s c hc
    simp [chunkLoop] at hc
  | succ n ih =>
    intro s c hc
    by_cases h1 : s < text.length
    · by_cases h2 : text.length ≤ s + m
      · simp [chunkLoop, h1, h2] at hc
        subst hc
        rw [List.length_drop]
        omega
      · simp [chunkLoop, h1, h2] at hc
        rcases hc with hc | hc
        · subst hc
          have hle := chunkBreakPoint_le text m s
          rw [List.length_take, List.length_drop]
          exact le_trans (min_le_left _ _) (by omega)
        · exact ih _ _ hc
    · simp [chunkLoop, h1] at hc

theorem chunkLoop_fuel_eq (text : List Char) (m : Nat) (hm : 1 ≤ m) :
    ∀ fuel fuel' s, text.length ≤ s + fuel → text.length ≤ s + fuel' →
      chunkLoop text m s fuel = chunkLoop text m s fuel' := by
  intro fuel
  induction fuel with
  | zero =>
    intro fuel' s hs hs'
    cases fuel' with
    | zero => rfl
    | succ k =>
      have h1 : ¬ s < text.length := by omega
      simp [chunkLoop, h1]
  | succ n ih =>
    intro fuel' s hs hs'
    cases fuel' with
    | zero =>
      have h1 : ¬ s < text.length := by omega
      simp [chunkLoop, h1]
    | succ k =>
      by_cases h1 : s < text.length
      · by_cases h2 : text.length ≤ s + m
        · simp [chunkLoop, h1, h2]
        · have hgt := chunkBreakPoint_gt text m s hm
          simp only [chunkLoop, if_pos h1, if_neg h2]
          rw [ih k (chunkBreakPoint text m s) (by omega) (by omega)]
      · simp [chunkLoop, h1]

theorem chunkList_join (text : List Char) (m : Nat) (hm : 1 ≤ m) :
    (chunkList text m).foldr (· ++ ·) [] = text := by
  unfold chunkList
  by_cases h : text.length ≤ m
  · simp [h]
  · rw [if_neg h]
    simpa using chunkLoop_join text m hm text.length 0 (by omega)

theorem chunkList_ne_nil (text : List Char) (m : Nat) (hm : 1 ≤ m) (hne : text ≠ []) :
    ∀ c ∈ chunkList text m, c ≠ [] := by
  intro c hc
  unfold chunkList at hc
  by_cases h : text.length ≤ m
  · simp [h] at hc
    subst hc
    exact hne
  · rw [if_neg h] at hc
    exact chunkLoop_ne_nil text m hm text.length 0 c hc

theorem chunkList_size_le (text : List Char) (m : Nat) :
    ∀ c ∈ chunkList text m, c.length ≤ m + 2 := by
  intro c hc
  unfold chunkList at hc
  by_cases h : text.length ≤ m
  · simp [h] at hc
    subst hc
    omega
  · rw [if_neg h] at hc
    exact chunkLoop_size_le text m text.length 0 c hc

theorem foldr_append_map_mk (l : List (List Char)) :
    (l.map String.mk).foldr (· ++ ·) "" = String.mk (l.foldr (· ++ ·) []) := by
  induction l with
  | nil => rfl
  | cons a t ih =>
    show String.mk a ++ (t.map String.mk).foldr (· ++ ·) "" = _
    rw [ih]
    rfl

theorem data_ne_nil (s : String) (h : s ≠ "") : s.data ≠ [] := by
  intro hd
  apply h
  cases s with
  | mk d =>
    cases hd
    rfl

theorem mk_ne_empty (l : List Char) (h : l ≠ []) : String.mk l ≠ "" := by
  intro he
  apply h
  simpa using congrArg String.data he

/-- C1 (amended): for every input text and every `maxChunkSize ≥ 1`,
concatenating the chunks of `chunkText` in order reproduces the input
exactly, and when the input is nonempty no chunk is the empty string.
(The empty input is returned as the single empty chunk, openai.ts
line 257, so its concatenation still reproduces the input.) -/
theorem chunkText_reconstructs (text : String) (m : Nat) (hm : 1 ≤ m) :
    (chunkText text m).foldr (· ++ ·) "" = text ∧
      (text ≠ "" → ∀ c ∈ chunkText text m, c ≠ "") := by
  refine ⟨?_, ?_⟩
  · show ((chunkList text.data m).map String.mk).foldr (· ++ ·) "" = text
    rw [foldr_append_map_mk, chunkList_join text.data m hm]
  · intro hne c hc
    rcases List.mem_map.mp hc with ⟨l, hl, rfl⟩
    exact mk_ne_empty l (chunkList_ne_nil text.data m hm (data_ne_nil text hne) l hl)

/-- C1 counterexample: on the empty input the Chunker returns the single
empty chunk (openai.ts line 257), so the no-empty-chunk part of the claim
fails at `text = ""`, `maxChunkSize = 1`. -/
theorem chunkText_empty_chunk_counterexample :
    chunkText "" 1 = [""] ∧ ("" : String) ∈ chunkText "" 1 := by decide

theorem chunkText_reconstructs_witness :
    (1 : Nat) ≤ 2 ∧
      ((chunkText "abcde" 2).foldr (· ++ ·) "" = "abcde" ∧
        ("abcde" ≠ "" → ∀ c ∈ chunkText "abcde" 2, c ≠ "")) :=
  ⟨by decide, chunkText_reconstructs "abcde" 2 (by decide)⟩

/-- C4 (amended): every chunk produced by `chunkText` has length at most
`maxChunkSize + 2`. Hard cuts, single-chunk inputs and the final chunk
respect `maxChunkSize` exactly, but a paragraph or sentence boundary whose
occurrence starts at or just below the size limit is included together
with its 2 separator characters, overshooting by up to 2. -/
theorem chunkText_size_bound (text : String) (m : Nat) (_hm : 1 ≤ m) :
    ∀ c ∈ chunkText text m, c.length ≤ m + 2 := by
  intro c hc
  rcases List.mem_map.mp hc with ⟨l, hl, rfl⟩
  exact chunkList_size_le text.data m l hl

/-- C4 counterexample: with `maxChunkSize = 2` the input `"ab\n\ncd"` has
its paragraph break starting exactly at the size limit, and the first
chunk `"ab\n\n"` is returned with length 4 > 2 — neither a hard cut nor
within the bound. -/
theorem chunkText_size_counterexample :
    ("ab\n\n" : String) ∈ chunkText "ab\n\ncd" 2 ∧ ("ab\n\n" : String).length = 4 := by decide

theorem chunkText_size_bound_witness :
    (1 : Nat) ≤ 2 ∧ ∀ c ∈ chunkText "abcdef" 2, c.length ≤ 2 + 2 :=
  ⟨by decide, chunkText_size_bound "abcdef" 2 (by decide)⟩

/-- C7: `chunkText` terminates for every input and every
`maxChunkSize ≥ 1`: each loop iteration strictly increases the offset
(the break point strictly exceeds `startIndex`; a candidate not strictly
beyond it was already discarded by `foundBeyond` in favour of the hard
cut), so `text.length` iterations of fuel always suffice and the loop
result is independent of any larger fuel bound. -/
theorem chunkText_forward_progress (text : String) (m : Nat) (hm : 1 ≤ m) :
    (∀ s, s < chunkBreakPoint text.data m s) ∧
      (∀ fuel, text.data.length ≤ fuel →
        chunkLoop text.data m 0 fuel = chunkLoop text.data m 0 text.data.length) := by
  refine ⟨fun s => chunkBreakPoint_gt text.data m s hm, fun fuel hf => ?_⟩
  exact chunkLoop_fuel_eq text.data m hm fuel text.data.length 0 (by omega) (by omega)

theorem chunkText_forward_progress_witness :
    (1 : Nat) ≤ 1 ∧ 0 < chunkBreakPoint "ab".data 1 0 :=
  ⟨by decide, (chunkText_forward_progress "ab" 1 (by decide)).1 0⟩

/-- A parsed flashcard object of the upstream JSON payload
(`GeneratedFlashcard`, openai.ts lines 17-21). -/
structure GeneratedFlashcard where
  question : String
  correctAnswer : String
  options : List String
  deriving DecidableEq

/-- The `InsertFlashcard` insert shape (shared/schema.ts,
`insertFlashcardSchema`): question, correctAnswer, options, collectionId.
The collectionId is modelled as `Option Int` so that a record built
without the field — the "no collectionId set" of the spec — is
representable as `none`; openai.ts line 80 always sets it to `0`. -/
structure InsertFlashcard where
  question : String
  correctAnswer : String
  options : List String
  collectionId : Option Int
  deriving DecidableEq

deriving instance DecidableEq for Except

/-- What one upstream chat-completion call of the flashcard loop produces,
as observed by openai.ts lines 49-73: the call throws; the response has no
content (`!response.choices[0]?.message.content`); `JSON.parse` throws; the
parsed object has no `flashcards` array; or a parsed list of flashcard
objects (possibly empty — `[]` is truthy in JS and is accepted). -/
inductive ChunkOutcome where
  | apiThrow (msg : String)
  | noContent
  | parseThrow (msg : String)
  | badShape
  | flashcards (cards : List GeneratedFlashcard)
  deriving DecidableEq

/-- Whether `pat` occurs anywhere in the list, as JS
`String.prototype.includes`. -/
def listContainsSub (pat : List Char) : List Char → Bool
  | [] => listStartsWith pat []
  | c :: t => listStartsWith pat (c :: t) || listContainsSub pat t

/-- JS `s.includes(pat)`. -/
def stringIncludes (s pat : String) : Bool :=
  listContainsSub pat.data s.data

/-- The replacement message thrown for quota errors (openai.ts
lines 90 and 241). -/
def quotaExceededMessage : String :=
  "OpenAI API quota exceeded. Please update your API key."

/-- The quota signature test of openai.ts lines 88-89 and 239-240. -/
def isQuotaMessage (msg : String) : Bool :=
  stringIncludes msg "exceeded your current quota" ||
    stringIncludes msg "insufficient_quota"

/-- The catch handler shared by both clients (openai.ts lines 84-95 and
235-246): an error whose message matches a quota signature is replaced by
the fixed quota message; every other error is rethrown unchanged. -/
def classifyApiError (msg : String) : String :=
  if isQuotaMessage msg then quotaExceededMessage else msg

/-- Conversion of one parsed card into the schema shape (openai.ts
lines 76-81): the fields are copied verbatim and `collectionId` is set to
the placeholder `0` ("This will be set by the caller"). -/
def toInsertFlashcard (card : GeneratedFlashcard) : InsertFlashcard :=
  { question := card.question
    correctAnswer := card.correctAnswer
    options := card.options
    collectionId := some 0 }

/-- One iteration body of the flashcard for-loop (openai.ts lines 48-95):
the inner try turns each abnormal outcome into its thrown error message,
and the inner catch classifies quota errors before rethrowing. -/
def processChunk (api : String → ChunkOutcome) (chunk : String) :
    Except String (List InsertFlashcard) :=
  match
    (match api chunk with
      | .apiThrow msg => Except.error msg
      | .noContent => Except.error "No response from OpenAI API"
      | .parseThrow msg => Except.error msg
      | .badShape => Except.error "Invalid response format from OpenAI API"
      | .flashcards cards => Except.ok (cards.map toInsertFlashcard))
  with
  | .error msg => .error (classifyApiError msg)
  | .ok cards => .ok cards

/-- The for-loop over chunks (openai.ts lines 45-96): the cards of each
chunk are appended to the accumulator in chunk order; the first failure
aborts the loop and propagates its message. -/
def processChunks (api : String → ChunkOutcome) :
    List String → List InsertFlashcard → Except String (List InsertFlashcard)
  | [], acc => .ok acc
  | chunk :: rest, acc =>
    match processChunk api chunk with
    | .error msg => .error msg
    | .ok cards => processChunks api rest (acc ++ cards)

/-- generateFlashcardsFromText (openai.ts lines 30-103). `apiKey` models
`process.env.OPENAI_API_KEY` (`none` is unset; JS truthiness makes the
empty string equivalent to unset, line 36); `api` is the upstream oracle
giving the outcome of the chat-completion call on each chunk. The outer
catch (lines 99-102) wraps every failure message with a fixed prefix. -/
def generateFlashcardsFromText (apiKey : Option String) (api : String → ChunkOutcome)
    (text : String) : Except String (List InsertFlashcard) :=
  match
    (if apiKey.getD "" = "" then Except.error "OpenAI API key is not configured"
     else processChunks api (chunkText text 4000) [])
  with
  | .error msg => .error ("Failed to generate flashcards: " ++ msg)
  | .ok cards => .ok cards

theorem processChunk_apiThrow (api : String → ChunkOutcome) (chunk msg : String)
    (h : api chunk = ChunkOutcome.apiThrow msg) :
    processChunk api chunk = .error (classifyApiError msg) := by
  unfold processChunk
  rw [h]

theorem processChunks_ok_prefix (api : String → ChunkOutcome) :
    ∀ (pre rest : List String) (acc : List InsertFlashcard),
      (∀ c ∈ pre, ∃ cs, processChunk api c = .ok cs) →
      ∃ acc2, processChunks api (pre ++ rest) acc = processChunks api rest acc2 := by
  intro pre
  induction pre with
  | nil =>
    intro rest acc _
    exact ⟨acc, rfl⟩
  | cons c t ih =>
    intro rest acc h
    rcases h c (by simp) with ⟨cs, hcs⟩
    have step : processChunks api ((c :: t) ++ rest) acc =
        processChunks api (t ++ rest) (acc ++ cs) := by
      show (match processChunk api c with
            | .error msg => Except.error msg
            | .ok cards => processChunks api (t ++ rest) (acc ++ cards)) =
          processChunks api (t ++ rest) (acc ++ cs)
      rw [hcs]
    rw [step]
    exact ih rest (acc ++ cs) (fun x hx => h x (by simp [hx]))

theorem processChunks_error_head (api : String → ChunkOutcome) (chunk : String)
    (rest : List String) (acc : List InsertFlashcard) (msg : String)
    (h : processChunk api chunk = .error msg) :
    processChunks api (chunk :: rest) acc = .error msg := by
  show (match processChunk api chunk with
        | .error msg => Except.error msg
        | .ok cards => processChunks api rest (acc ++ cards)) = .error msg
  rw [h]

theorem generate_fail_eq (apiKey : Option String) (api : String → ChunkOutcome)
    (text chunk msg : String) (pre post : List String)
    (hkey : apiKey.getD "" ≠ "")
    (hchunks : chunkText text 4000 = pre ++ chunk :: post)
    (hpre : ∀ c ∈ pre, ∃ cs, processChunk api c = .ok cs)
    (hfail : api chunk = ChunkOutcome.apiThrow msg) :
    generateFlashcardsFromText apiKey api text =
      .error ("Failed to generate flashcards: " ++ classifyApiError msg) := by
  have hbody : processChunks api (chunkText text 4000) [] = .error (classifyApiError msg) := by
    rw [hchunks]
    rcases processChunks_ok_prefix api pre (chunk :: post) [] hpre with ⟨acc2, hacc⟩
    rw [hacc]
    exact processChunks_error_head api chunk post acc2 _ (processChunk_apiThrow api chunk msg hfail)
  unfold generateFlashcardsFromText
  rw [if_neg hkey, hbody]

/-- C2: if the upstream call for some chunk throws while every earlier
chunk succeeded, the whole invocation fails with the classified failure
wrapped by the outer catch, and no flashcard list is returned at all —
the candidates already accumulated from earlier chunks are discarded. -/
theorem generate_all_or_nothing (apiKey : Option String) (api : String → ChunkOutcome)
    (text chunk msg : String) (pre post : List String)
    (hkey : apiKey.getD "" ≠ "")
    (hchunks : chunkText text 4000 = pre ++ chunk :: post)
    (hpre : ∀ c ∈ pre, ∃ cs, processChunk api c = .ok cs)
    (hfail : api chunk = ChunkOutcome.apiThrow msg) :
    generateFlashcardsFromText apiKey api text =
        .error ("Failed to generate flashcards: " ++ classifyApiError msg) ∧
      ∀ cards, generateFlashcardsFromText apiKey api text ≠ .ok cards := by
  have hmain := generate_fail_eq apiKey api text chunk msg pre post hkey hchunks hpre hfail
  refine ⟨hmain, fun cards hc => ?_⟩
  rw [hmain] at hc
  exact Except.noConfusion hc

theorem generate_all_or_nothing_witness :
    ((some "k" : Option String).getD "" ≠ "" ∧ chunkText "hi" 4000 = [] ++ "hi" :: []) ∧
      generateFlashcardsFromText (some "k") (fun _ => ChunkOutcome.apiThrow "boom") "hi" =
        .error ("Failed to generate flashcards: " ++ classifyApiError "boom") :=
  ⟨⟨by decide, by decide⟩,
    (generate_all_or_nothing (some "k") (fun _ => ChunkOutcome.apiThrow "boom") "hi" "hi" "boom"
      [] [] (by decide) (by decide)
      (fun c hc => absurd hc (List.not_mem_nil c)) rfl).1⟩

/-- What one upstream summarization call produces, as observed by
openai.ts lines 208-234: the call throws; the response has no content;
`JSON.parse` throws; or a parsed object whose `summary` field is absent
(`none`) or carries a string. -/
inductive SummaryOutcome where
  | apiThrow (msg : String)
  | noContent
  | parseThrow (msg : String)
  | parsed (summary : Option String)
  deriving DecidableEq

/-- One upstream summarization call: the text sent, the `isPartialSummary`
flag, and the word limit put into the prompt (openai.ts line 192: 250 when
partial, 500 otherwise). -/
structure SummaryCall where
  text : String
  isPartial : Bool
  wordLimit : Nat
  deriving DecidableEq

/-- summarizeSingleChunk (openai.ts lines 191-247), paired with the one
upstream call it performs. The `!parsedResponse.summary` check of line 230
rejects both an absent `summary` field and the empty string (falsy in JS).
The catch of lines 235-246 classifies quota errors before rethrowing. -/
def summarizeSingleChunkT (api : String → Bool → SummaryOutcome) (text : String)
    (isPartialSummary : Bool) : Except String String × List SummaryCall :=
  (match
     (match api text isPartialSummary with
       | .apiThrow msg => Except.error msg
       | .noContent => Except.error "No response from OpenAI API"
       | .parseThrow msg => Except.error msg
       | .parsed none => Except.error "Invalid response format from OpenAI API"
       | .parsed (some s) =>
         if s = "" then Except.error "Invalid response format from OpenAI API"
         else Except.ok s)
   with
   | .error msg => .error (classifyApiError msg)
   | .ok s => .ok s,
   [⟨text, isPartialSummary, if isPartialSummary then 250 else 500⟩])

/-- The result component of summarizeSingleChunk. -/
def summarizeSingleChunk (api : String → Bool → SummaryOutcome) (text : String)
    (isPartialSummary : Bool) : Except String String :=
  (summarizeSingleChunkT api text isPartialSummary).1

/-- The per-chunk for-loop of openai.ts lines 168-173: one partial summary
per chunk, in chunk order, stopping at the first failure; paired with the
upstream calls performed so far. -/
def partialSummaries (api : String → Bool → SummaryOutcome) :
    List String → Except String (List String) × List SummaryCall
  | [] => (.ok [], [])
  | chunk :: rest =>
    match summarizeSingleChunkT api chunk true with
    | (.error msg, calls) => (.error msg, calls)
    | (.ok s, calls) =>
      match partialSummaries api rest with
      | (.error msg, calls2) => (.error msg, calls ++ calls2)
      | (.ok ss, calls2) => (.ok (s :: ss), calls ++ calls2)

/-- The outer catch of generateSummaryFromText (openai.ts lines 182-185):
every failure message is wrapped with a fixed prefix. -/
def wrapSummaryError : Except String String → Except String String
  | .error msg => .error ("Failed to generate summary: " ++ msg)
  | .ok s => .ok s

/-- generateSummaryFromText (openai.ts lines 156-186), paired with the
ordered list of upstream summarization calls it performs. Chunking budget
6000 (line 164). More than one chunk: a partial summary per chunk, then
the join of the partial summaries with a blank line is summarized once
more as the final pass (lines 167-177). Otherwise: a single non-partial
summarization of `contentChunks[0]` (line 180; `chunkText` never returns
an empty list, so `headD` only formalizes the indexing). -/
def generateSummaryFromTextT (apiKey : Option String)
    (api : String → Bool → SummaryOutcome) (text : String) :
    Except String String × List SummaryCall :=
  if apiKey.getD "" = "" then
    (.error ("Failed to generate summary: " ++ "OpenAI API key is not configured"), [])
  else
    if 1 < (chunkText text 6000).length then
      match partialSummaries api (chunkText text 6000) with
      | (.error msg, calls) => (.error ("Failed to generate summary: " ++ msg), calls)
      | (.ok chunkSummaries, calls) =>
        (wrapSummaryError
            (summarizeSingleChunkT api (String.intercalate "\n\n" chunkSummaries) false).1,
          calls ++
            (summarizeSingleChunkT api (String.intercalate "\n\n" chunkSummaries) false).2)
    else
      (wrapSummaryError (summarizeSingleChunkT api ((chunkText text 6000).headD "") false).1,
        (summarizeSingleChunkT api ((chunkText text 6000).headD "") false).2)

/-- The result component of generateSummaryFromText. -/
def generateSummaryFromText (apiKey : Option String)
    (api : String → Bool → SummaryOutcome) (text : String) : Except String String :=
  (generateSummaryFromTextT apiKey api text).1

theorem summarizeSingleChunkT_ok (api : String → Bool → SummaryOutcome)
    (t : String) (p : Bool) (s : String)
    (hapi : api t p = SummaryOutcome.parsed (some s)) (hne : s ≠ "") :
    summarizeSingleChunkT api t p = (.ok s, [⟨t, p, if p then 250 else 500⟩]) := by
  unfold summarizeSingleChunkT
  rw [hapi]
  simp [hne]

theorem summarizeSingleChunkT_apiThrow (api : String → Bool → SummaryOutcome)
    (t : String) (p : Bool) (msg : String)
    (hapi : api t p = SummaryOutcome.apiThrow msg) :
    summarizeSingleChunkT api t p =
      (.error (classifyApiError msg), [⟨t, p, if p then 250 else 500⟩]) := by
  unfold summarizeSingleChunkT
  rw [hapi]

theorem partialSummaries_all_ok (api : String → Bool → SummaryOutcome)
    (summaryOf : String → String)
    (hapi : ∀ t, api t true = SummaryOutcome.parsed (some (summaryOf t)))
    (hne : ∀ t, summaryOf t ≠ "") :
    ∀ l : List String, partialSummaries api l =
      (.ok (l.map summaryOf), l.map fun c => ⟨c, true, 250⟩) := by
  intro l
  induction l with
  | nil => rfl
  | cons c t ih =>
    have hc : summarizeSingleChunkT api c true = (.ok (summaryOf c), [⟨c, true, 250⟩]) :=
      summarizeSingleChunkT_ok api c true (summaryOf c) (hapi c) (hne c)
    simp only [partialSummaries, hc, ih]
    rfl

/-- C5: with chunking budget 6000, when at least two chunks result the
Summary Reducer performs exactly one partial summarization per chunk
(word ceiling 250, isPartial = true) in chunk order, joins the partial
summaries with a blank line, performs exactly one final summarization of
the concatenation (word ceiling 500, isPartial = false), and returns its
result; when exactly one chunk results, it performs exactly one
summarization call with isPartial = false on that chunk. -/
theorem summary_two_level_reduction (apiKey : Option String)
    (api : String → Bool → SummaryOutcome) (text : String)
    (summaryOf : String → String)
    (hkey : apiKey.getD "" ≠ "")
    (hapi : ∀ t p, api t p = SummaryOutcome.parsed (some (summaryOf t)))
    (hne : ∀ t, summaryOf t ≠ "") :
    (∀ c cs, chunkText text 6000 = c :: cs → cs ≠ [] →
      generateSummaryFromTextT apiKey api text =
        (.ok (summaryOf (String.intercalate "\n\n" ((c :: cs).map summaryOf))),
          ((c :: cs).map fun ch => ⟨ch, true, 250⟩) ++
            [⟨String.intercalate "\n\n" ((c :: cs).map summaryOf), false, 500⟩])) ∧
    (∀ c, chunkText text 6000 = [c] →
      generateSummaryFromTextT apiKey api text = (.ok (summaryOf c), [⟨c, false, 500⟩])) := by
  constructor
  · intro c cs hchunks hcs
    unfold generateSummaryFromTextT
    rw [if_neg hkey, hchunks]
    rw [if_pos (by cases cs with
      | nil => exact absurd rfl hcs
      | cons a t => simp)]
    rw [partialSummaries_all_ok api summaryOf (fun t => hapi t true) hne (c :: cs)]
    have hfinal := summarizeSingleChunkT_ok api
      (String.intercalate "\n\n" ((c :: cs).map summaryOf)) false
      (summaryOf (String.intercalate "\n\n" ((c :: cs).map summaryOf)))
      (hapi _ false) (hne _)
    simp only [hfinal]
    rfl
  · intro c hchunks
    unfold generateSummaryFromTextT
    rw [if_neg hkey, hchunks]
    rw [if_neg (by simp)]
    have hfinal := summarizeSingleChunkT_ok api c false (summaryOf c) (hapi c false) (hne c)
    simp only [List.headD_cons, hfinal]
    rfl

theorem summary_two_level_reduction_witness :
    ((some "k" : Option String).getD "" ≠ "" ∧ chunkText "hello" 6000 = ["hello"]) ∧
      generateSummaryFromTextT (some "k") (fun _ _ => SummaryOutcome.parsed (some "s")) "hello" =
        (.ok "s", [⟨"hello", false, 500⟩]) :=
  ⟨⟨by decide, by decide⟩,
    (summary_two_level_reduction (some "k") (fun _ _ => SummaryOutcome.parsed (some "s")) "hello"
      (fun _ => "s") (by decide) (fun _ _ => rfl)
      (fun _ => (by decide : ("s" : String) ≠ ""))).2 "hello" (by decide)⟩

/-- C10: a parsed summarization response whose `summary` field is the
empty string is rejected — the truthiness check of openai.ts line 230
fails on the empty string, not merely on an absent field — so
summarizeSingleChunk fails with the invalid-response-format error, and so
does generateSummaryFromText (here for a document of one chunk). -/
theorem empty_summary_rejected (apiKey : Option String)
    (api : String → Bool → SummaryOutcome) (text doc c : String) (isPartial : Bool)
    (hkey : apiKey.getD "" ≠ "")
    (hapi : api text isPartial = SummaryOutcome.parsed (some ""))
    (hchunks : chunkText doc 6000 = [c])
    (hapi2 : api c false = SummaryOutcome.parsed (some "")) :
    summarizeSingleChunk api text isPartial =
        .error "Invalid response format from OpenAI API" ∧
      generateSummaryFromText apiKey api doc =
        .error ("Failed to generate summary: " ++ "Invalid response format from OpenAI API") := by
  have hcl : classifyApiError "Invalid response format from OpenAI API" =
      "Invalid response format from OpenAI API" := by decide
  have hT : ∀ (t : String) (p : Bool), api t p = SummaryOutcome.parsed (some "") →
      summarizeSingleChunkT api t p =
        (.error "Invalid response format from OpenAI API",
          [⟨t, p, if p then 250 else 500⟩]) := by
    intro t p hp
    unfold summarizeSingleChunkT
    rw [hp]
    simp [hcl]
  constructor
  · show (summarizeSingleChunkT api text isPartial).1 = _
    rw [hT text isPartial hapi]
  · show (generateSummaryFromTextT apiKey api doc).1 = _
    unfold generateSummaryFromTextT
    rw [if_neg hkey, hchunks]
    rw [if_neg (by simp)]
    simp only [List.headD_cons, hT c false hapi2]
    rfl

theorem empty_summary_rejected_witness :
    ((fun (_ : String) (_ : Bool) => SummaryOutcome.parsed (some "")) "t" true =
        SummaryOutcome.parsed (some "")) ∧
      summarizeSingleChunk (fun _ _ => SummaryOutcome.parsed (some "")) "t" true =
        .error "Invalid response format from OpenAI API" :=
  ⟨rfl, (empty_summary_rejected (some "k") (fun _ _ => SummaryOutcome.parsed (some "")) "t" "d" "d"
      true (by decide) rfl (by decide) rfl).1⟩

/-- C6: both clients classify an upstream throw by its message — a message
containing either quota signature is reported as the quota-exceeded
failure (the fixed replacement message of openai.ts lines 90/241), and a
message containing neither signature propagates unchanged as a generic
upstream failure. -/
theorem quota_error_classification (fapi : String → ChunkOutcome)
    (sapi : String → Bool → SummaryOutcome) (chunk text msg : String) (isPartial : Bool)
    (hf : fapi chunk = ChunkOutcome.apiThrow msg)
    (hs : sapi text isPartial = SummaryOutcome.apiThrow msg) :
    (isQuotaMessage msg = true →
      processChunk fapi chunk = .error quotaExceededMessage ∧
        summarizeSingleChunk sapi text isPartial = .error quotaExceededMessage) ∧
    (isQuotaMessage msg = false →
      processChunk fapi chunk = .error msg ∧
        summarizeSingleChunk sapi text isPartial = .error msg) := by
  have h1 : processChunk fapi chunk = .error (classifyApiError msg) :=
    processChunk_apiThrow fapi chunk msg hf
  have h2 : summarizeSingleChunk sapi text isPartial = .error (classifyApiError msg) := by
    show (summarizeSingleChunkT sapi text isPartial).1 = _
    rw [summarizeSingleChunkT_apiThrow sapi text isPartial msg hs]
  constructor
  · intro hq
    have hcl : classifyApiError msg = quotaExceededMessage := by
      simp [classifyApiError, hq]
    rw [hcl] at h1 h2
    exact ⟨h1, h2⟩
  · intro hq
    have hcl : classifyApiError msg = msg := by
      simp [classifyApiError, hq]
    rw [hcl] at h1 h2
    exact ⟨h1, h2⟩

theorem quota_error_classification_witness :
    isQuotaMessage "insufficient_quota hit" = true ∧
      processChunk (fun _ => ChunkOutcome.apiThrow "insufficient_quota hit") "c" =
        .error quotaExceededMessage :=
  ⟨by decide,
    ((quota_error_classification (fun _ => ChunkOutcome.apiThrow "insufficient_quota hit")
      (fun _ _ => SummaryOutcome.apiThrow "insufficient_quota hit") "c" "t"
      "insufficient_quota hit" false rfl rfl).1 (by decide)).1⟩

theorem processChunks_all_ok (api : String → ChunkOutcome)
    (cardsOf : String → List GeneratedFlashcard) :
    ∀ (l : List String) (acc : List InsertFlashcard),
      (∀ c ∈ l, api c = ChunkOutcome.flashcards (cardsOf c)) →
      processChunks api l acc =
        .ok (acc ++ (l.map fun c => (cardsOf c).map toInsertFlashcard).flatten) := by
  intro l
  induction l with
  | nil =>
    intro acc _
    simp [processChunks]
  | cons c t ih =>
    intro acc h
    have hc : processChunk api c = .ok ((cardsOf c).map toInsertFlashcard) := by
      unfold processChunk
      rw [h c (by simp)]
    show (match processChunk api c with
          | .error msg => Except.error msg
          | .ok cards => processChunks api t (acc ++ cards)) = _
    rw [hc]
    show processChunks api t (acc ++ (cardsOf c).map toInsertFlashcard) = _
    rw [ih (acc ++ (cardsOf c).map toInsertFlashcard) (fun x hx => h x (by simp [hx]))]
    simp

/-- C3 (amended): the Generation Client performs no validation of the
options sequence — when every chunk parses, every parsed candidate is
returned verbatim (converted by `toInsertFlashcard`, which copies the
fields and sets the placeholder collectionId), in chunk order, including
candidates whose options list is not of length 4 or does not contain the
correct answer. -/
theorem generate_no_options_validation (apiKey : Option String)
    (api : String → ChunkOutcome) (text : String)
    (cardsOf : String → List GeneratedFlashcard)
    (hkey : apiKey.getD "" ≠ "")
    (hapi : ∀ chunk ∈ chunkText text 4000,
      api chunk = ChunkOutcome.flashcards (cardsOf chunk)) :
    generateFlashcardsFromText apiKey api text =
      .ok ((chunkText text 4000).map fun c => (cardsOf c).map toInsertFlashcard).flatten := by
  unfold generateFlashcardsFromText
  rw [if_neg hkey, processChunks_all_ok api cardsOf (chunkText text 4000) [] hapi]
  rfl

/-- A payload violating the options invariant: a single option, not equal
to the correct answer. -/
def badCard : GeneratedFlashcard :=
  { question := "Q", correctAnswer := "A", options := ["B"] }

/-- C3 counterexample: an upstream payload whose candidate has an options
list of length 1 not containing the correct answer is accepted and
returned anyway — the client never checks the invariant (the spec itself
flags the missing defensive check in §4.4/§9). -/
theorem generate_options_counterexample :
    generateFlashcardsFromText (some "key") (fun _ => ChunkOutcome.flashcards [badCard]) "doc" =
        .ok [toInsertFlashcard badCard] ∧
      (toInsertFlashcard badCard).options.length ≠ 4 ∧
      (toInsertFlashcard badCard).correctAnswer ∉ (toInsertFlashcard badCard).options := by
  decide

theorem generate_no_options_validation_witness :
    ((some "key" : Option String).getD "" ≠ "") ∧
      generateFlashcardsFromText (some "key") (fun _ => ChunkOutcome.flashcards [badCard]) "doc" =
        .ok ((chunkText "doc" 4000).map fun c =>
          ((fun _ => [badCard]) c).map toInsertFlashcard).flatten :=
  ⟨by decide,
    generate_no_options_validation (some "key") (fun _ => ChunkOutcome.flashcards [badCard])
      "doc" (fun _ => [badCard]) (by decide) (fun _ _ => rfl)⟩

theorem processChunk_collectionId (api : String → ChunkOutcome) (chunk : String)
    (cards : List InsertFlashcard) (h : processChunk api chunk = .ok cards) :
    ∀ card ∈ cards, card.collectionId = some 0 := by
  unfold processChunk at h
  cases hapi : api chunk with
  | apiThrow msg =>
    rw [hapi] at h
    simp at h
  | noContent =>
    rw [hapi] at h
    simp at h
  | parseThrow msg =>
    rw [hapi] at h
    simp at h
  | badShape =>
    rw [hapi] at h
    simp at h
  | flashcards raw =>
    rw [hapi] at h
    simp at h
    subst h
    intro card hc
    rcases List.mem_map.mp hc with ⟨r, _, rfl⟩
    rfl

theorem processChunks_collectionId (api : String → ChunkOutcome) :
    ∀ (l : List String) (acc cards : List InsertFlashcard),
      (∀ card ∈ acc, card.collectionId = some 0) →
      processChunks api l acc = .ok cards →
      ∀ card ∈ cards, card.collectionId = some 0 := by
  intro l
  induction l with
  | nil =>
    intro acc cards hacc h
    have hac : acc = cards := Except.ok.inj h
    subst hac
    exact hacc
  | cons c t ih =>
    intro acc cards hacc h
    cases hpc : processChunk api c with
    | error msg =>
      rw [processChunks_error_head api c t acc msg hpc] at h
      exact absurd h (by simp)
    | ok newCards =>
      have hstep : processChunks api (c :: t) acc = processChunks api t (acc ++ newCards) := by
        show (match processChunk api c with
              | .error msg => Except.error msg
              | .ok cards => processChunks api t (acc ++ cards)) = _
        rw [hpc]
      rw [hstep] at h
      refine ih (acc ++ newCards) cards ?_ h
      intro card hcard
      rcases List.mem_append.mp hcard with hcard | hcard
      · exact hacc card hcard
      · exact processChunk_collectionId api c newCards hpc card hcard

/-- C8 (amended): generateFlashcardsFromText does not attach a real
collection identifier — every record of a successful invocation carries
the placeholder collectionId 0 set at openai.ts line 80 ("This will be set
by the caller"); the actual collection id is attached by the caller after
assembly succeeds (routes.ts overwrites card.collectionId). -/
theorem generate_collectionId_placeholder (apiKey : Option String)
    (api : String → ChunkOutcome) (text : String) (cards : List InsertFlashcard)
    (h : generateFlashcardsFromText apiKey api text = .ok cards) :
    ∀ card ∈ cards, card.collectionId = some 0 := by
  unfold generateFlashcardsFromText at h
  by_cases hkey : apiKey.getD "" = ""
  · rw [if_pos hkey] at h
    simp at h
  · rw [if_neg hkey] at h
    cases hbody : processChunks api (chunkText text 4000) [] with
    | error msg =>
      rw [hbody] at h
      simp at h
    | ok cards2 =>
      rw [hbody] at h
      simp at h
      subst h
      exact processChunks_collectionId api (chunkText text 4000) [] cards2 (by simp) hbody

/-- A fully valid payload, as in the end-to-end example of the spec. -/
def sampleCard : GeneratedFlashcard :=
  { question := "Q1", correctAnswer := "A", options := ["A", "B", "C", "D"] }

/-- C8 counterexample: a successful invocation returns records whose
collectionId is present and equal to 0 (openai.ts line 80) — the records
do carry a collectionId value, contrary to the claim. -/
theorem generate_collectionId_counterexample :
    generateFlashcardsFromText (some "key") (fun _ => ChunkOutcome.flashcards [sampleCard])
        "doc2" = .ok [toInsertFlashcard sampleCard] ∧
      (toInsertFlashcard sampleCard).collectionId ≠ none := by
  decide

theorem generate_collectionId_placeholder_witness :
    (toInsertFlashcard sampleCard).collectionId = some 0 :=
  generate_collectionId_placeholder (some "key")
    (fun _ => ChunkOutcome.flashcards [sampleCard]) "doc2"
    [toInsertFlashcard sampleCard] (by decide) (toInsertFlashcard sampleCard) (by decide)

theorem summary_fail_eq (apiKey : Option String)
    (sapi : String → Bool → SummaryOutcome) (stext c0 msg : String)
    (hkey : apiKey.getD "" ≠ "")
    (hschunks : chunkText stext 6000 = [c0])
    (hsfail : sapi c0 false = SummaryOutcome.apiThrow msg) :
    generateSummaryFromText apiKey sapi stext =
      .error ("Failed to generate summary: " ++ classifyApiError msg) := by
  show (generateSummaryFromTextT apiKey sapi stext).1 = _
  unfold generateSummaryFromTextT
  rw [if_neg hkey, hschunks]
  rw [if_neg (by simp)]
  simp only [List.headD_cons, summarizeSingleChunkT_apiThrow sapi c0 false msg hsfail]
  rfl

/-- C9 (amended): no failure is silently swallowed — an upstream throw
always surfaces as a failure of the whole call, for both clients — and a
non-quota failure carries the original upstream message behind the fixed
outer prefix; a quota-classified failure, however, has its original
message replaced by the fixed quota message. -/
theorem failure_message_propagation (apiKey : Option String)
    (api : String → ChunkOutcome) (sapi : String → Bool → SummaryOutcome)
    (text stext chunk c0 msg : String) (pre post : List String)
    (hkey : apiKey.getD "" ≠ "")
    (hchunks : chunkText text 4000 = pre ++ chunk :: post)
    (hpre : ∀ c ∈ pre, ∃ cs, processChunk api c = .ok cs)
    (hfail : api chunk = ChunkOutcome.apiThrow msg)
    (hschunks : chunkText stext 6000 = [c0])
    (hsfail : sapi c0 false = SummaryOutcome.apiThrow msg) :
    (isQuotaMessage msg = false →
      generateFlashcardsFromText apiKey api text =
          .error ("Failed to generate flashcards: " ++ msg) ∧
        generateSummaryFromText apiKey sapi stext =
          .error ("Failed to generate summary: " ++ msg)) ∧
    (isQuotaMessage msg = true →
      generateFlashcardsFromText apiKey api text =
          .error ("Failed to generate flashcards: " ++ quotaExceededMessage) ∧
        generateSummaryFromText apiKey sapi stext =
          .error ("Failed to generate summary: " ++ quotaExceededMessage)) := by
  have h1 := generate_fail_eq apiKey api text chunk msg pre post hkey hchunks hpre hfail
  have h2 := summary_fail_eq apiKey sapi stext c0 msg hkey hschunks hsfail
  constructor
  · intro hq
    have hcl : classifyApiError msg = msg := by
      simp [classifyApiError, hq]
    rw [hcl] at h1 h2
    exact ⟨h1, h2⟩
  · intro hq
    have hcl : classifyApiError msg = quotaExceededMessage := by
      simp [classifyApiError, hq]
    rw [hcl] at h1 h2
    exact ⟨h1, h2⟩

/-- C9 counterexample: for a quota-classified failure the original
upstream message is replaced — the propagated failure carries the fixed
quota message and no longer contains the detail of the original message
("out of tokens"). -/
theorem failure_message_counterexample :
    generateFlashcardsFromText (some "k")
        (fun _ => ChunkOutcome.apiThrow "insufficient_quota: out of tokens") "hi2" =
        .error ("Failed to generate flashcards: " ++
          "OpenAI API quota exceeded. Please update your API key.") ∧
      stringIncludes ("Failed to generate flashcards: " ++
        "OpenAI API quota exceeded. Please update your API key.") "out of tokens" = false := by
  decide

theorem failure_message_propagation_witness :
    isQuotaMessage "network down" = false ∧
      generateFlashcardsFromText (some "k") (fun _ => ChunkOutcome.apiThrow "network down") "w9" =
        .error ("Failed to generate flashcards: " ++ "network down") :=
  ⟨by decide,
    ((failure_message_propagation (some "k") (fun _ => ChunkOutcome.apiThrow "network down")
      (fun _ _ => SummaryOutcome.apiThrow "network down") "w9" "w9s" "w9" "w9s" "network down"
      [] [] (by decide) (by decide) (fun c hc => absurd hc (List.not_mem_nil c)) rfl
      (by decide) rfl).1 (by decide)).1⟩

end FlashcardsAI
